import Mathlib

/-!
Shallow embedding of the birocrat form engine
(files src/packages/birocrat/src/lib.rs and src/packages/birocrat/src/error.rs).

The Lua VM is modelled by a value type `LuaVal` covering the serializable
fragment that the engine exchanges with the script, and the driver function is
an arbitrary Lean function from the three call arguments to either a VM-level
failure or a returned value.  Snapshots (serde JSON values in the source) are
represented by the same value type: the engine never inspects a snapshot, and
serialization of a value already in the serializable fragment is modelled as
the identity embedding.  Conversion semantics of the mlua bindings (string
coercion of numbers, nil for absent table keys, as_boolean and as_str being
strict on the variant) are modelled explicitly.
-/

namespace Birocrat

/-- A Lua value, restricted to the serializable fragment exchanged with the
driver script.  A table is split into its array part and its string-keyed
hash part, matching how the engine accesses tables (positional reads on the
returned triple, named keys on question payloads). -/
inductive LuaVal where
  | nil : LuaVal
  | boolean (b : Bool) : LuaVal
  | num (n : Int) : LuaVal
  | str (s : String) : LuaVal
  | table (arr : List LuaVal) (fields : List (String × LuaVal)) : LuaVal
deriving Repr

/-- The different types of questions that can be asked (the Rust enum
`Question`). -/
inductive Question where
  | simple (prompt : String) (default : Option String) : Question
  | multiline (prompt : String) (default : Option String) : Question
  | select (prompt : String) (default : Option String)
      (options : List String) (multiple : Bool) : Question
deriving Repr, DecidableEq

/-- The default suggested answer carried by a question, whatever its type. -/
def Question.defaultOf : Question → Option String
  | Question.simple _ d => d
  | Question.multiline _ d => d
  | Question.select _ d _ _ => d

/-- An answer from the user (the Rust enum `Answer`). -/
inductive Answer where
  | text (s : String) : Answer
  | options (selected : List String) : Answer
deriving Repr, DecidableEq

/-- The state of the Lua script observed by the engine (the Rust enum
`ScriptState`).  A `done` state holds the final document (a serde JSON value
in the source, represented here by the same value type). -/
inductive ScriptState where
  | asking (id : String) (question : Question) : ScriptState
  | done (result : LuaVal) : ScriptState
deriving Repr

/-- The error enum from src/packages/birocrat/src/error.rs; the mlua and
serde source errors carried by some variants hold no information relevant to
control flow and are dropped.  The variant `defaultNotInOptions` is the one
constructed in lib.rs for a select default missing from the options list. -/
inductive Error where
  | scriptLoadFailed : Error
  | noMainFunction : Error
  | runDriverFailed : Error
  | invalidResult : Error
  | invalidState (value : String) : Error
  | serializeStateFailed : Error
  | serializeAnswersFailed : Error
  | nonStringErrorMessage : Error
  | nonTableQuestion : Error
  | noIdInQuestionData : Error
  | noTypeInQuestionData : Error
  | noBodyInQuestionData : Error
  | invalidQuestionType (ty : String) : Error
  | invalidMultipleProperty : Error
  | noOptionsInQuestionData : Error
  | defaultNotInOptions (default : String) : Error
  | firstPollFailed (script_err : String) : Error
  | firstPollDone : Error
  | allocateAnswerTableFailed : Error
  | invalidAnswerType (expected : String) : Error
  | serializeFormParamsFailed : Error
deriving Repr, DecidableEq

/-- The possible results when polling the form (the Rust enum `FormPoll`).
The Rust variants borrow from the engine; here the question and cached answer
are held by value. -/
inductive FormPoll where
  | question (q : Question) (answer : Option Answer) : FormPoll
  | error (msg : String) : FormPoll
  | done : FormPoll
deriving Repr

/-- Reading a named key from the hash part of a Lua table: a table read at the
dynamic value type never fails and yields nil for an absent key. -/
def tableGet : List (String × LuaVal) → String → LuaVal
  | [], _ => LuaVal.nil
  | (k, v) :: rest, key => if k = key then v else tableGet rest key

/-- Conversion of a Lua value to a Rust `String` as performed by the mlua
bindings: Lua strings convert, numbers coerce to their textual form,
everything else (including nil for an absent key) fails. -/
def luaToStringCoerce : LuaVal → Option String
  | LuaVal.str s => some s
  | LuaVal.num n => some (toString n)
  | _ => none

/-- Conversion of a Lua value to a Rust `Vec<String>`: the value must be a
table, and every element of its array part must convert to a string. -/
def luaToStringList : LuaVal → Option (List String)
  | LuaVal.table arr _ => arr.mapM luaToStringCoerce
  | _ => none

/-- Model of `Value::as_boolean`: only the boolean variant converts. -/
def luaAsBoolean : LuaVal → Option Bool
  | LuaVal.boolean b => some b
  | _ => none

/-- Model of `Value::as_str`: only the string variant converts. -/
def luaAsStr : LuaVal → Option String
  | LuaVal.str s => some s
  | _ => none

/-- Tail of the question arm of `ScriptState::from_lua` for select questions:
fetch the options, check any default against them, and build the select
question. -/
def decodeSelectQuestion (id question_body : String)
    (suggested_answer : Option String) (fields : List (String × LuaVal))
    (multiple : Bool) : Except Error (Except String ScriptState) :=
  match luaToStringList (tableGet fields "options") with
  | none => Except.error Error.noOptionsInQuestionData
  | some options =>
    match suggested_answer with
    | some d =>
      if options.contains d then
        Except.ok (Except.ok (ScriptState.asking id
          (Question.select question_body (some d) options multiple)))
      else
        Except.error (Error.defaultNotInOptions d)
    | none =>
      Except.ok (Except.ok (ScriptState.asking id
        (Question.select question_body none options multiple)))

/-- Model of `ScriptState::from_lua`: decodes the pair of tag and payload
returned by the driver into a `ScriptState`, or a script-level error string
when the tag is the string error (the nested result type). -/
def ScriptState.from_lua (state : String) (props : LuaVal) :
    Except Error (Except String ScriptState) :=
  if state = "question" then
    match props with
    | LuaVal.table _ fields =>
      match luaToStringCoerce (tableGet fields "id") with
      | none => Except.error Error.noIdInQuestionData
      | some id =>
        match luaToStringCoerce (tableGet fields "type") with
        | none => Except.error Error.noTypeInQuestionData
        | some question_type =>
          match luaToStringCoerce (tableGet fields "text") with
          | none => Except.error Error.noBodyInQuestionData
          | some question_body =>
            -- Reading the key default at type Option String and then
            -- applying unwrap_or None: an absent key gives nil hence none,
            -- and a failed conversion is silently replaced by none.
            let suggested_answer : Option String :=
              luaToStringCoerce (tableGet fields "default")
            if question_type = "simple" then
              Except.ok (Except.ok (ScriptState.asking id
                (Question.simple question_body suggested_answer)))
            else if question_type = "multiline" then
              Except.ok (Except.ok (ScriptState.asking id
                (Question.multiline question_body suggested_answer)))
            else if question_type = "select" then
              -- an absent or nil key multiple defaults to false
              match tableGet fields "multiple" with
              | LuaVal.nil =>
                decodeSelectQuestion id question_body suggested_answer
                  fields false
              | v =>
                match luaAsBoolean v with
                | none => Except.error Error.invalidMultipleProperty
                | some multiple =>
                  decodeSelectQuestion id question_body suggested_answer
                    fields multiple
            else
              Except.error (Error.invalidQuestionType question_type)
    | _ => Except.error Error.nonTableQuestion
  else if state = "error" then
    match luaAsStr props with
    | some error_msg => Except.ok (Except.error error_msg)
    | none => Except.error Error.nonStringErrorMessage
  else if state = "done" then
    -- serde serialization of the payload: identity on the modelled fragment
    Except.ok (Except.ok (ScriptState.done props))
  else
    Except.error (Error.invalidState state)

/-- Outcome of calling the driver in the VM: either a VM-level failure or a
returned Lua value.  The conversion of the returned value to a table is part
of `call_driver_fn` below, since a failed conversion surfaces through the
same error as a failed call. -/
inductive DriverOut where
  | vmError : DriverOut
  | ret (v : LuaVal) : DriverOut

/-- The driver function of the script, taking inner state, answer and
parameters, as observed by the engine. -/
def Driver : Type := LuaVal → LuaVal → LuaVal → DriverOut

/-- Model of `Answer::to_lua`: the table fields of the VM-native encoding of
an answer.  Allocation of the table in the VM is modelled as always
succeeding. -/
def Answer.to_lua : Answer → List (String × LuaVal)
  | Answer.text s => [("type", LuaVal.str "text"), ("text", LuaVal.str s)]
  | Answer.options xs =>
      [("type", LuaVal.str "options"),
       ("selected", LuaVal.table (xs.map LuaVal.str) [])]

/-- Model of `Form::call_driver_fn`: calls the driver with the given optional
state and answer (both nil on the first poll), converts the returned value to
a table, reads its three positional components, decodes the script state and
implants the new snapshot.  Serialization of the snapshot is the identity on
the modelled fragment. -/
def call_driver_fn (driver_function : Driver) (parameters : LuaVal)
    (inner_state_and_answer : Option (LuaVal × Answer)) :
    Except Error (Except String (ScriptState × LuaVal)) :=
  let args : LuaVal × LuaVal :=
    match inner_state_and_answer with
    | some (inner_state, answer) =>
        (inner_state, LuaVal.table [] answer.to_lua)
    | none => (LuaVal.nil, LuaVal.nil)
  match driver_function args.1 args.2 parameters with
  | DriverOut.vmError => Except.error Error.runDriverFailed
  | DriverOut.ret (LuaVal.table arr _) =>
    -- the positional read of the tag at type String (Lua index 1 is the
    -- first array slot)
    match luaToStringCoerce (arr.getD 0 LuaVal.nil) with
    | none => Except.error Error.invalidResult
    | some state =>
      let props := arr.getD 1 LuaVal.nil
      let inner_state := arr.getD 2 LuaVal.nil
      match ScriptState.from_lua state props with
      | Except.error e => Except.error e
      | Except.ok (Except.error script_err) =>
          Except.ok (Except.error script_err)
      | Except.ok (Except.ok script_state) =>
          Except.ok (Except.ok (script_state, inner_state))
  | DriverOut.ret _ => Except.error Error.runDriverFailed

/-- Insertion into the cached-answers hash map, modelled as an association
list: replace the binding in place when the key is present, append
otherwise. -/
def insertAnswer : List (String × Answer) → String → Answer →
    List (String × Answer)
  | [], key, a => [(key, a)]
  | (k, v) :: rest, key, a =>
      if k = key then (k, a) :: rest else (k, v) :: insertAnswer rest key a

/-- Lookup in the cached-answers hash map. -/
def lookupAnswer : List (String × Answer) → String → Option Answer
  | [], _ => none
  | (k, v) :: rest, key => if k = key then some v else lookupAnswer rest key

/-- The form engine (the Rust struct `Form`).  The borrowed Lua VM is
implicit; the resolved driver function is carried directly. -/
structure Form where
  /-- Answers keyed by script-provided question id (field `cached_answers`). -/
  cached_answers : List (String × Answer)
  /-- The ledger of answered triples of id, question and snapshot, ordered as
  the questions were asked (field `script_states`). -/
  script_states : List (String × Question × LuaVal)
  /-- The pending pair of script state and snapshot not yet answered (field
  `next_state`). -/
  next_state : ScriptState × LuaVal
  /-- Parameters passed verbatim to the script on every call. -/
  parameters : LuaVal
  /-- The entry point of the driver script. -/
  driver_function : Driver

/-- The observable data of a form: everything except the driver function. -/
def Form.data (f : Form) :
    List (String × Answer) × List (String × Question × LuaVal) ×
      (ScriptState × LuaVal) × LuaVal :=
  (f.cached_answers, f.script_states, f.next_state, f.parameters)

/-- Model of `Form::new_with_lua_params` after the script has loaded
successfully and exposed a Main global (script loading itself only touches
the VM): poll the driver once with nil state and answer, and accept only an
asking first state. -/
def new_with_lua_params (driver_function : Driver) (parameters : LuaVal) :
    Except Error Form :=
  match call_driver_fn driver_function parameters none with
  | Except.error e => Except.error e
  | Except.ok (Except.error err) =>
      Except.error (Error.firstPollFailed err)
  | Except.ok (Except.ok first_state) =>
    match first_state with
    | (ScriptState.asking id question, inner) =>
        Except.ok
          { cached_answers := []
            script_states := []
            next_state := (ScriptState.asking id question, inner)
            parameters := parameters
            driver_function := driver_function }
    | (ScriptState.done _, _) => Except.error Error.firstPollDone

/-- Model of `Form::get_script_state`: poll the script with the given
snapshot and answer; never modifies the form. -/
def Form.get_script_state (f : Form) (inner_state : LuaVal) (answer : Answer) :
    Except Error (Except String (ScriptState × LuaVal)) :=
  call_driver_fn f.driver_function f.parameters (some (inner_state, answer))

/-- Model of `Form::first_question`.  A result of none models the panic:
either the explicit one when the form has already been progressed, or the
unreachable arm when the pending state is not a question. -/
def Form.first_question (f : Form) : Option Question :=
  if ¬ f.script_states.isEmpty ∨ ¬ f.cached_answers.isEmpty then none
  else
    match f.next_state.1 with
    | ScriptState.asking _ question => some question
    | _ => none

/-- Model of `Form::next_question`: the pending question with any cached
answer for its id, or none when the form is done. -/
def Form.next_question (f : Form) : Option (Question × Option Answer) :=
  match f.next_state.1 with
  | ScriptState.asking id question =>
      some (question, lookupAnswer f.cached_answers id)
  | _ => none

/-- Model of `Form::get_question`: the ledger entry at the given index with
any cached answer for its id; never polls the script. -/
def Form.get_question (f : Form) (idx : Nat) :
    Option (Question × Option Answer) :=
  match f.script_states.get? idx with
  | some (id, question, _) =>
      some (question, lookupAnswer f.cached_answers id)
  | none => none

/-- Model of `Form::into_done`: the final document if the pending state is
done, otherwise the unchanged form. -/
def Form.into_done (f : Form) : Except Form LuaVal :=
  match f.next_state with
  | (ScriptState.done obj, _) => Except.ok obj
  | _ => Except.error f

/-- The answer-shape check of `Form::progress_with_answer` (its match on the
question): some error is the hard error returned early, none means the answer
passes. -/
def validateAnswer (question : Question) (answer : Answer) : Option Error :=
  match question with
  | Question.simple _ _ | Question.multiline _ _ =>
    match answer with
    | Answer.text _ => none
    | _ => some (Error.invalidAnswerType "text for simple/multiline question")
  | Question.select _ _ options multiple =>
    match answer with
    | Answer.options selected =>
      if ¬ multiple ∧ selected.length > 1 then
        some (Error.invalidAnswerType
          "single option for non-multiple select question")
      else if ¬ selected.all (fun s => options.contains s) then
        some (Error.invalidAnswerType "all options to be valid")
      else none
    | _ => some (Error.invalidAnswerType "options for select question")

/-- Body of `Form::progress_with_answer` after the target step has been
located: validate the answer, poll the script, and commit on success.  In the
non-clobbering case the Rust code pushes the destructured old pending state,
which in that branch is exactly the located triple. -/
def progressCore (f : Form) (question_idx : Nat) (answer : Answer)
    (question_id : String) (question : Question) (inner_state : LuaVal)
    (should_clobber : Bool) : Except Error FormPoll × Form :=
  match validateAnswer question answer with
  | some e => (Except.error e, f)
  | none =>
    match f.get_script_state inner_state answer with
    | Except.error e => (Except.error e, f)
    | Except.ok (Except.error script_err) =>
        (Except.ok (FormPoll.error script_err), f)
    | Except.ok (Except.ok (new_state, new_inner_state)) =>
      let cached := insertAnswer f.cached_answers question_id answer
      let f' : Form :=
        if should_clobber then
          { f with
              cached_answers := cached
              script_states := f.script_states.take (question_idx + 1)
              next_state := (new_state, new_inner_state) }
        else
          { f with
              cached_answers := cached
              script_states :=
                f.script_states ++ [(question_id, question, inner_state)]
              next_state := (new_state, new_inner_state) }
      match new_state with
      | ScriptState.asking id question =>
          (Except.ok (FormPoll.question question (lookupAnswer cached id)), f')
      | ScriptState.done _ => (Except.ok FormPoll.done, f')

/-- Model of `Form::progress_with_answer`.  The pair returned is the Rust
result together with the form after the call (the receiver is mutable in the
source); every early-exit path leaves the form unchanged. -/
def Form.progress_with_answer (f : Form) (question_idx : Nat)
    (answer : Answer) : Except Error FormPoll × Form :=
  match f.script_states.get? question_idx with
  | some (question_id, question, inner_state) =>
      progressCore f question_idx answer question_id question inner_state true
  | none =>
    match f.next_state with
    | (ScriptState.asking id question, inner_state) =>
        progressCore f question_idx answer id question inner_state false
    | (ScriptState.done _, _) => (Except.ok FormPoll.done, f)

/-- The step targeted by a progress call at a given index: the ledger entry
at that index if there is one, otherwise the pending question.  It is none
exactly when the call short-circuits on a completed form. -/
def locateTarget (f : Form) (question_idx : Nat) :
    Option (String × Question × LuaVal) :=
  match f.script_states.get? question_idx with
  | some t => some t
  | none =>
    match f.next_state with
    | (ScriptState.asking id question, inner_state) =>
        some (id, question, inner_state)
    | (ScriptState.done _, _) => none

/-- Running a sequence of progress calls, keeping the successive forms. -/
def runCalls (f : Form) (calls : List (Nat × Answer)) : Form :=
  calls.foldl (fun g c => (g.progress_with_answer c.1 c.2).2) f

/-- The forms reachable through the public interface: a freshly constructed
form, or the form after any progress call on a reachable form. -/
inductive Reachable : Form → Prop
  | init (d : Driver) (p : LuaVal) (f : Form) :
      new_with_lua_params d p = Except.ok f → Reachable f
  | step (f : Form) (i : Nat) (a : Answer) :
      Reachable f → Reachable (f.progress_with_answer i a).2

/-! Concrete material used by witnesses and counterexamples: a small driver
script with one rename question, one age question and script-side validation,
mirroring the shape of the basic integration test. -/

/-- The hash part of a question payload table. -/
def qTableFields (id ty text : String) : List (String × LuaVal) :=
  [("id", LuaVal.str id), ("type", LuaVal.str ty), ("text", LuaVal.str text)]

/-- A driver return carrying a question payload. -/
def retQuestion (id ty text : String) (snap : LuaVal) : DriverOut :=
  DriverOut.ret (LuaVal.table
    [LuaVal.str "question", LuaVal.table [] (qTableFields id ty text), snap] [])

/-- A driver return carrying a script-level error message. -/
def retScriptError (msg : String) : DriverOut :=
  DriverOut.ret (LuaVal.table
    [LuaVal.str "error", LuaVal.str msg, LuaVal.nil] [])

/-- A driver return carrying a final document. -/
def retDone (v : LuaVal) : DriverOut :=
  DriverOut.ret (LuaVal.table [LuaVal.str "done", v, LuaVal.nil] [])

/-- A two-question driver: from the initial nil state it asks a name; from
snapshot s1 it rejects the answer err with a script error, moves to the age
question on the answer B, and completes otherwise; from snapshot s2 it
rejects err and completes otherwise. -/
def demoDriver : Driver := fun state answer _params =>
  match state with
  | LuaVal.nil => retQuestion "name" "simple" "Name?" (LuaVal.str "s1")
  | LuaVal.str s =>
    match answer with
    | LuaVal.table _ fields =>
      match tableGet fields "text" with
      | LuaVal.str t =>
        if s = "s1" then
          if t = "err" then retScriptError "bad name"
          else if t = "B" then
            retQuestion "age" "simple" "Age?" (LuaVal.str "s2")
          else retDone (LuaVal.str "done-early")
        else if s = "s2" then
          if t = "err" then retScriptError "bad age"
          else retDone (LuaVal.str "RESULT")
        else DriverOut.vmError
      | _ => DriverOut.vmError
    | _ => DriverOut.vmError
  | _ => DriverOut.vmError

/-- The name question of the demo driver. -/
def qName : Question := Question.simple "Name?" none

/-- The age question of the demo driver. -/
def qAge : Question := Question.simple "Age?" none

/-- The demo form as constructed. -/
def demoForm0 : Form :=
  { cached_answers := []
    script_states := []
    next_state := (ScriptState.asking "name" qName, LuaVal.str "s1")
    parameters := LuaVal.nil
    driver_function := demoDriver }

/-- The demo form after answering the name question with B. -/
def demoForm1 : Form :=
  { cached_answers := [("name", Answer.text "B")]
    script_states := [("name", qName, LuaVal.str "s1")]
    next_state := (ScriptState.asking "age" qAge, LuaVal.str "s2")
    parameters := LuaVal.nil
    driver_function := demoDriver }

/-- The demo form after additionally answering the age question with
the text fine, reaching the done state. -/
def demoForm2 : Form :=
  { cached_answers := [("name", Answer.text "B"), ("age", Answer.text "fine")]
    script_states :=
      [("name", qName, LuaVal.str "s1"), ("age", qAge, LuaVal.str "s2")]
    next_state := (ScriptState.done (LuaVal.str "RESULT"), LuaVal.nil)
    parameters := LuaVal.nil
    driver_function := demoDriver }

/-- A driver whose first poll immediately returns a done state. -/
def firstDoneDriver : Driver := fun _ _ _ => retDone (LuaVal.str "X")

/-- A driver whose first poll immediately returns a script error. -/
def firstErrDriver : Driver := fun _ _ _ => retScriptError "nope"

example : new_with_lua_params demoDriver LuaVal.nil = Except.ok demoForm0 :=
  rfl

example :
    (demoForm0.progress_with_answer 0 (Answer.text "B")).2 = demoForm1 :=
  rfl

example :
    (demoForm1.progress_with_answer 1 (Answer.text "fine")).2 = demoForm2 :=
  rfl

example :
    (demoForm1.progress_with_answer 1 (Answer.text "err")).1 =
      Except.ok (FormPoll.error "bad age") :=
  rfl

example :
    (demoForm2.progress_with_answer 0 (Answer.text "B")).2.next_state.1 =
      ScriptState.asking "age" qAge :=
  rfl

/-! Supporting lemmas. -/

theorem lookupAnswer_insertAnswer (m : List (String × Answer)) (key : String)
    (a : Answer) (k : String) :
    lookupAnswer (insertAnswer m key a) k =
      if key = k then some a else lookupAnswer m k := by
  induction m with
  | nil =>
    by_cases h : key = k <;> simp [insertAnswer, lookupAnswer, h]
  | cons hd tl ih =>
    obtain ⟨k0, v0⟩ := hd
    by_cases h0 : k0 = key
    · subst h0
      by_cases h : k0 = k <;>
        simp [insertAnswer, lookupAnswer, h]
    · by_cases h : k0 = k
      · subst h
        have : ¬ key = k0 := fun hh => h0 hh.symm
        simp [insertAnswer, lookupAnswer, h0, this]
      · simp [insertAnswer, lookupAnswer, h0, h, ih]

theorem progressCore_validate_some (f : Form) (i : Nat) (a : Answer)
    (qid : String) (q : Question) (inner : LuaVal) (c : Bool) (e : Error)
    (hval : validateAnswer q a = some e) :
    progressCore f i a qid q inner c = (Except.error e, f) := by
  simp [progressCore, hval]

theorem progressCore_hard_error (f : Form) (i : Nat) (a : Answer)
    (qid : String) (q : Question) (inner : LuaVal) (c : Bool) (e : Error)
    (hval : validateAnswer q a = none)
    (hscript : f.get_script_state inner a = Except.error e) :
    progressCore f i a qid q inner c = (Except.error e, f) := by
  simp [progressCore, hval, hscript]

theorem progressCore_script_error (f : Form) (i : Nat) (a : Answer)
    (qid : String) (q : Question) (inner : LuaVal) (c : Bool) (msg : String)
    (hval : validateAnswer q a = none)
    (hscript : f.get_script_state inner a = Except.ok (Except.error msg)) :
    progressCore f i a qid q inner c = (Except.ok (FormPoll.error msg), f) := by
  simp [progressCore, hval, hscript]

/-- The committed form of a successful progress call. -/
def commitForm (f : Form) (i : Nat) (a : Answer) (qid : String) (q : Question)
    (inner : LuaVal) (c : Bool) (ns : ScriptState) (ni : LuaVal) : Form :=
  { f with
      cached_answers := insertAnswer f.cached_answers qid a
      script_states :=
        if c then f.script_states.take (i + 1)
        else f.script_states ++ [(qid, q, inner)]
      next_state := (ns, ni) }

/-- The poll reported after a successful progress call. -/
def reportPoll (cached : List (String × Answer)) (ns : ScriptState) :
    FormPoll :=
  match ns with
  | ScriptState.asking id question =>
      FormPoll.question question (lookupAnswer cached id)
  | ScriptState.done _ => FormPoll.done

theorem progressCore_success (f : Form) (i : Nat) (a : Answer)
    (qid : String) (q : Question) (inner : LuaVal) (c : Bool)
    (ns : ScriptState) (ni : LuaVal)
    (hval : validateAnswer q a = none)
    (hscript : f.get_script_state inner a = Except.ok (Except.ok (ns, ni))) :
    progressCore f i a qid q inner c =
      (Except.ok (reportPoll (insertAnswer f.cached_answers qid a) ns),
        commitForm f i a qid q inner c ns ni) := by
  cases c <;> cases ns <;>
    simp [progressCore, hval, hscript, commitForm, reportPoll]

theorem progress_eq_core_of_get (f : Form) (i : Nat) (a : Answer)
    (qid : String) (q : Question) (inner : LuaVal)
    (hget : f.script_states.get? i = some (qid, q, inner)) :
    f.progress_with_answer i a = progressCore f i a qid q inner true := by
  unfold Form.progress_with_answer
  rw [hget]

theorem progress_eq_core_of_pending (f : Form) (i : Nat) (a : Answer)
    (id : String) (q : Question) (inner : LuaVal)
    (hget : f.script_states.get? i = none)
    (hpending : f.next_state = (ScriptState.asking id q, inner)) :
    f.progress_with_answer i a = progressCore f i a id q inner false := by
  unfold Form.progress_with_answer
  rw [hget, hpending]

theorem progress_done_short_circuit (f : Form) (i : Nat) (a : Answer)
    (v : LuaVal) (snap : LuaVal)
    (hget : f.script_states.get? i = none)
    (hpending : f.next_state = (ScriptState.done v, snap)) :
    f.progress_with_answer i a = (Except.ok FormPoll.done, f) := by
  unfold Form.progress_with_answer
  rw [hget, hpending]

theorem locateTarget_of_get (f : Form) (i : Nat)
    (qid : String) (q : Question) (inner : LuaVal)
    (hget : f.script_states.get? i = some (qid, q, inner)) :
    locateTarget f i = some (qid, q, inner) := by
  unfold locateTarget
  rw [hget]

/-- Case analysis for a located target: it comes from the ledger (and the
call clobbers) or from the pending question (and the call appends). -/
theorem locateTarget_cases (f : Form) (i : Nat)
    (qid : String) (q : Question) (inner : LuaVal)
    (hloc : locateTarget f i = some (qid, q, inner)) :
    f.script_states.get? i = some (qid, q, inner) ∨
      (f.script_states.get? i = none ∧
        f.next_state = (ScriptState.asking qid q, inner)) := by
  unfold locateTarget at hloc
  cases hget : f.script_states.get? i with
  | some t =>
    left
    rw [hget] at hloc
    simpa using hloc
  | none =>
    right
    rw [hget] at hloc
    rcases hpending : f.next_state with ⟨st, snap⟩
    cases st with
    | asking id0 q0 =>
      rw [hpending] at hloc
      simp at hloc
      obtain ⟨h1, h2, h3⟩ := hloc
      subst h1
      subst h2
      subst h3
      exact ⟨rfl, rfl⟩
    | done v =>
      rw [hpending] at hloc
      simp at hloc

/-- Dispatch of a progress call through a located target. -/
theorem progress_eq_core_of_locate (f : Form) (i : Nat) (a : Answer)
    (qid : String) (q : Question) (inner : LuaVal)
    (hloc : locateTarget f i = some (qid, q, inner)) :
    f.progress_with_answer i a =
      progressCore f i a qid q inner (f.script_states.get? i).isSome := by
  rcases locateTarget_cases f i qid q inner hloc with hget | ⟨hget, hpending⟩
  · rw [progress_eq_core_of_get f i a qid q inner hget, hget]
    rfl
  · rw [progress_eq_core_of_pending f i a qid q inner hget hpending, hget]
    rfl

/-! Claim C1. -/

/-- C1: for every form whose pending state is a question, a progress call
whose answer passes shape validation and for which the script invocation
succeeds at the VM level but returns the error tag with message msg returns
the soft poll result carrying msg and leaves the engine completely unchanged:
ledger, cached answers and pending state are identical to their values before
the call (the resulting form is the original form itself). -/
theorem progress_script_error_preserves_state (f : Form) (i : Nat)
    (a : Answer) (qid : String) (q : Question) (inner : LuaVal) (msg : String)
    (hask : ∃ id q0, f.next_state.1 = ScriptState.asking id q0)
    (hloc : locateTarget f i = some (qid, q, inner))
    (hval : validateAnswer q a = none)
    (hscript : f.get_script_state inner a = Except.ok (Except.error msg)) :
    f.progress_with_answer i a = (Except.ok (FormPoll.error msg), f) := by
  rw [progress_eq_core_of_locate f i a qid q inner hloc]
  exact progressCore_script_error f i a qid q inner _ msg hval hscript

/-- Witness for C1: the demo form rejects the answer err at the pending age
question with the script error message, unchanged. -/
theorem progress_script_error_preserves_state_witness :
    demoForm1.progress_with_answer 1 (Answer.text "err") =
      (Except.ok (FormPoll.error "bad age"), demoForm1) :=
  progress_script_error_preserves_state demoForm1 1 (Answer.text "err")
    "age" qAge (LuaVal.str "s2") "bad age" ⟨"age", qAge, rfl⟩ rfl rfl rfl

/-! Claim C2. -/

/-- The answer shapes rejected by the engine before the script is consulted:
text expected but not given, options expected but not given, several options
on a single-choice select, or a selected option outside the list offered by
the question. -/
def answerShapeMismatch (q : Question) (a : Answer) : Prop :=
  (((∃ p d, q = Question.simple p d) ∨ (∃ p d, q = Question.multiline p d)) ∧
      ∀ s, a ≠ Answer.text s) ∨
  ((∃ p d opts m, q = Question.select p d opts m) ∧
      ∀ sel, a ≠ Answer.options sel) ∨
  (∃ p d opts sel, q = Question.select p d opts false ∧
      a = Answer.options sel ∧ 1 < sel.length) ∨
  (∃ p d opts m sel x, q = Question.select p d opts m ∧
      a = Answer.options sel ∧ x ∈ sel ∧ x ∉ opts)

theorem validateAnswer_of_mismatch (q : Question) (a : Answer)
    (hmis : answerShapeMismatch q a) :
    ∃ s, validateAnswer q a = some (Error.invalidAnswerType s) := by
  rcases hmis with ⟨hq, ha⟩ | ⟨hq, ha⟩ | ⟨p, d, opts, sel, hq, ha, hlen⟩ |
      ⟨p, d, opts, m, sel, x, hq, ha, hx, hnx⟩
  · rcases hq with ⟨p, d, hq⟩ | ⟨p, d, hq⟩ <;> subst hq <;> cases a with
    | text s => exact absurd rfl (ha s)
    | options sel => exact ⟨_, rfl⟩
  · obtain ⟨p, d, opts, m, hq⟩ := hq
    subst hq
    cases a with
    | text s => exact ⟨_, rfl⟩
    | options sel => exact absurd rfl (ha sel)
  · subst hq
    subst ha
    refine ⟨"single option for non-multiple select question", ?_⟩
    simp [validateAnswer, hlen]
  · subst hq
    subst ha
    by_cases hfirst : ¬ m = true ∧ 1 < sel.length
    · refine ⟨"single option for non-multiple select question", ?_⟩
      simp [validateAnswer, hfirst.1, hfirst.2]
    · refine ⟨"all options to be valid", ?_⟩
      have hfirst' : ¬ (m = false ∧ 1 < sel.length) := fun hc =>
        hfirst ⟨by simp [hc.1], hc.2⟩
      have hex : ∃ y ∈ sel, y ∉ opts := ⟨x, hx, hnx⟩
      simp [validateAnswer, hfirst', hex]

/-- C2: a progress call whose answer has the wrong shape for the targeted
question (text expected, options expected, several options on a single-choice
select, or an option outside the offered list) returns the hard invalid
answer type error and leaves the engine unchanged, and it does so for every
driver function alike — the script is not consulted. -/
theorem progress_invalid_shape (f : Form) (i : Nat) (a : Answer)
    (qid : String) (q : Question) (inner : LuaVal)
    (hloc : locateTarget f i = some (qid, q, inner))
    (hmis : answerShapeMismatch q a) :
    ∃ s, f.progress_with_answer i a =
        (Except.error (Error.invalidAnswerType s), f) ∧
      ∀ d' : Driver,
        Form.progress_with_answer { f with driver_function := d' } i a =
          (Except.error (Error.invalidAnswerType s),
            { f with driver_function := d' }) := by
  obtain ⟨s, hval⟩ := validateAnswer_of_mismatch q a hmis
  have key : ∀ d' : Driver,
      Form.progress_with_answer { f with driver_function := d' } i a =
        (Except.error (Error.invalidAnswerType s),
          { f with driver_function := d' }) := by
    intro d'
    have hloc' : locateTarget { f with driver_function := d' } i =
        some (qid, q, inner) := hloc
    rw [progress_eq_core_of_locate _ i a qid q inner hloc']
    exact progressCore_validate_some _ i a qid q inner _ _ hval
  exact ⟨s, key f.driver_function, key⟩

/-- Witness for C2: an options answer to the pending simple age question of
the demo form is rejected with the invalid answer type error and leaves the
form unchanged. -/
theorem progress_invalid_shape_witness :
    ∃ s, demoForm1.progress_with_answer 1 (Answer.options ["x"]) =
        (Except.error (Error.invalidAnswerType s), demoForm1) ∧
      ∀ d' : Driver,
        Form.progress_with_answer { demoForm1 with driver_function := d' } 1
            (Answer.options ["x"]) =
          (Except.error (Error.invalidAnswerType s),
            { demoForm1 with driver_function := d' }) :=
  progress_invalid_shape demoForm1 1 (Answer.options ["x"]) "age" qAge
    (LuaVal.str "s2") rfl
    (Or.inl ⟨Or.inl ⟨"Age?", none, rfl⟩, fun _ h => Answer.noConfusion h⟩)

/-! Claim C3. -/

/-- C3: a successful progress call at a ledger index (the answer passes
validation and the script returns a question or a done state) truncates the
ledger to exactly the first i + 1 entries — keeping the just-answered step —
and replaces the pending state with the newly decoded pair. -/
theorem progress_rewind_truncates (f : Form) (i : Nat) (a : Answer)
    (qid : String) (q : Question) (inner : LuaVal) (ns : ScriptState)
    (ni : LuaVal)
    (hget : f.script_states.get? i = some (qid, q, inner))
    (hval : validateAnswer q a = none)
    (hscript : f.get_script_state inner a = Except.ok (Except.ok (ns, ni))) :
    (f.progress_with_answer i a).2.script_states =
        f.script_states.take (i + 1) ∧
      (f.progress_with_answer i a).2.script_states.length = i + 1 ∧
      (f.progress_with_answer i a).2.next_state = (ns, ni) := by
  obtain ⟨hlt, -⟩ := List.get?_eq_some.mp hget
  rw [progress_eq_core_of_get f i a qid q inner hget,
    progressCore_success f i a qid q inner true ns ni hval hscript]
  refine ⟨by simp [commitForm], ?_, by simp [commitForm]⟩
  simp [commitForm, List.length_take]
  exact Nat.succ_le_of_lt hlt

/-- Witness for C3: rewinding the completed demo form at index 0 with the
answer B truncates the ledger to one entry and re-enters a question state. -/
theorem progress_rewind_truncates_witness :
    (demoForm2.progress_with_answer 0 (Answer.text "B")).2.script_states =
        demoForm2.script_states.take (0 + 1) ∧
      (demoForm2.progress_with_answer 0
          (Answer.text "B")).2.script_states.length = 0 + 1 ∧
      (demoForm2.progress_with_answer 0 (Answer.text "B")).2.next_state =
        (ScriptState.asking "age" qAge, LuaVal.str "s2") :=
  progress_rewind_truncates demoForm2 0 (Answer.text "B") "name" qName
    (LuaVal.str "s1") (ScriptState.asking "age" qAge) (LuaVal.str "s2")
    rfl rfl rfl

/-! Claim C4.  The claim as stated is refuted by the code: a rewind at a
ledger index below the ledger length may bring a completed form back to a
question state (the basic integration test exercises exactly this).  The
pending state is terminal only for calls at indices at or past the ledger
length. -/

/-- A single progress call at or past the ledger length on a completed form
returns the done poll and leaves the form unchanged. -/
theorem progress_done_unchanged (f : Form) (i : Nat) (a : Answer) (v : LuaVal)
    (hdone : f.next_state.1 = ScriptState.done v)
    (hge : f.script_states.length ≤ i) :
    f.progress_with_answer i a = (Except.ok FormPoll.done, f) := by
  have hget : f.script_states.get? i = none := List.get?_eq_none.mpr hge
  have hpair : f.next_state = (ScriptState.done v, f.next_state.2) := by
    rw [← hdone]
  exact progress_done_short_circuit f i a v f.next_state.2 hget hpair

/-- Counterexample to C4: a reachable form (built by construction and two
successful advances) whose pending state is done, on which a single further
progress call — a rewind at index 0 — makes the pending state a question
again. -/
theorem pending_done_reentered_by_rewind :
    new_with_lua_params demoDriver LuaVal.nil = Except.ok demoForm0 ∧
      (demoForm0.progress_with_answer 0 (Answer.text "B")).2 = demoForm1 ∧
      (demoForm1.progress_with_answer 1 (Answer.text "fine")).2 = demoForm2 ∧
      demoForm2.next_state.1 = ScriptState.done (LuaVal.str "RESULT") ∧
      (demoForm2.progress_with_answer 0 (Answer.text "B")).2.next_state.1 =
        ScriptState.asking "age" qAge :=
  ⟨rfl, rfl, rfl, rfl, rfl⟩

/-- C4 as amended: the pending state is always populated (it is a total field
of the engine), and once it holds a done state, no sequence of progress calls
at indices at or past the current ledger length changes the engine at all —
in particular the pending state holds the same done state forever.  Only a
rewind at an index strictly below the ledger length can return to a question
state. -/
theorem pending_done_stable_without_rewind (f : Form)
    (calls : List (Nat × Answer)) (v : LuaVal)
    (hdone : f.next_state.1 = ScriptState.done v)
    (hidx : ∀ c ∈ calls, f.script_states.length ≤ c.1) :
    runCalls f calls = f ∧
      (runCalls f calls).next_state.1 = ScriptState.done v := by
  have main : runCalls f calls = f := by
    induction calls with
    | nil => rfl
    | cons c rest ih =>
      have h1 : f.progress_with_answer c.1 c.2 =
          (Except.ok FormPoll.done, f) :=
        progress_done_unchanged f c.1 c.2 v hdone (hidx c (by simp))
      calc runCalls f (c :: rest) =
            runCalls (f.progress_with_answer c.1 c.2).2 rest := rfl
        _ = runCalls f rest := by rw [h1]
        _ = f := ih fun c' hc' => hidx c' (by simp [hc'])
  exact ⟨main, by rw [main, hdone]⟩

/-- Witness for the amended C4: two calls at indices past the ledger length
of the completed demo form leave it unchanged and still done. -/
theorem pending_done_stable_without_rewind_witness :
    runCalls demoForm2 [(5, Answer.text "B"), (2, Answer.options [])] =
        demoForm2 ∧
      (runCalls demoForm2
          [(5, Answer.text "B"), (2, Answer.options [])]).next_state.1 =
        ScriptState.done (LuaVal.str "RESULT") :=
  pending_done_stable_without_rewind demoForm2
    [(5, Answer.text "B"), (2, Answer.options [])] (LuaVal.str "RESULT")
    rfl (by decide)

/-! Claim C5. -/

/-- The committing branch of a progress call does not depend on the index
when it does not clobber. -/
theorem progressCore_false_idx (f : Form) (i j : Nat) (a : Answer)
    (qid : String) (q : Question) (inner : LuaVal) :
    progressCore f i a qid q inner false =
      progressCore f j a qid q inner false := rfl

/-- C5: a progress call at an index strictly past the ledger length behaves
exactly as the call at the ledger length itself; in particular, whenever the
pending state is done, any call at or past the ledger length returns the done
poll immediately and changes nothing. -/
theorem progress_past_end (f : Form) (i : Nat) (a : Answer) :
    (f.script_states.length < i →
      f.progress_with_answer i a =
        f.progress_with_answer f.script_states.length a) ∧
      (∀ v, f.next_state.1 = ScriptState.done v →
        f.script_states.length ≤ i →
          f.progress_with_answer i a = (Except.ok FormPoll.done, f)) := by
  constructor
  · intro hgt
    have hgi : f.script_states.get? i = none :=
      List.get?_eq_none.mpr (le_of_lt hgt)
    have hgn : f.script_states.get? f.script_states.length = none :=
      List.get?_eq_none.mpr le_rfl
    rcases hnext : f.next_state with ⟨st, snap⟩
    cases st with
    | asking id q =>
      rw [progress_eq_core_of_pending f i a id q snap hgi hnext,
        progress_eq_core_of_pending f _ a id q snap hgn hnext]
      exact progressCore_false_idx f i f.script_states.length a id q snap
    | done v =>
      rw [progress_done_short_circuit f i a v snap hgi hnext,
        progress_done_short_circuit f _ a v snap hgn hnext]
  · intro v hdone hge
    exact progress_done_unchanged f i a v hdone hge

/-- Witness for C5: on the completed demo form, index 3 behaves as index 2
(the ledger length), and index 5 with an arbitrarily shaped answer returns
done and changes nothing. -/
theorem progress_past_end_witness :
    demoForm2.progress_with_answer 3 (Answer.text "B") =
        demoForm2.progress_with_answer 2 (Answer.text "B") ∧
      demoForm2.progress_with_answer 5 (Answer.options []) =
        (Except.ok FormPoll.done, demoForm2) :=
  ⟨(progress_past_end demoForm2 3 (Answer.text "B")).1 (by decide),
    (progress_past_end demoForm2 5 (Answer.options [])).2
      (LuaVal.str "RESULT") rfl (by decide)⟩

/-! Claim C6. -/

/-- C6: construction polls the driver once, with nil prior snapshot and nil
prior answer — the outcome is determined by the value of the driver at that
single input (first conjunct).  If the decoded first result is a question,
the engine is created with an empty ledger, an empty answers map and that
state pending; a script-level error fails construction with the first-poll
failure carrying the message; a done first state fails construction with the
first-poll-done error. -/
theorem new_spec (d : Driver) (p : LuaVal) :
    (∀ d' : Driver, d' LuaVal.nil LuaVal.nil p = d LuaVal.nil LuaVal.nil p →
      (new_with_lua_params d' p).map Form.data =
        (new_with_lua_params d p).map Form.data) ∧
      (∀ id q snap,
        call_driver_fn d p none =
            Except.ok (Except.ok (ScriptState.asking id q, snap)) →
          new_with_lua_params d p = Except.ok
            { cached_answers := []
              script_states := []
              next_state := (ScriptState.asking id q, snap)
              parameters := p
              driver_function := d }) ∧
      (∀ msg, call_driver_fn d p none = Except.ok (Except.error msg) →
        new_with_lua_params d p =
          Except.error (Error.firstPollFailed msg)) ∧
      (∀ v snap,
        call_driver_fn d p none =
            Except.ok (Except.ok (ScriptState.done v, snap)) →
          new_with_lua_params d p = Except.error Error.firstPollDone) := by
  refine ⟨?_, ?_, ?_, ?_⟩
  · intro d' hagree
    have hcall : call_driver_fn d' p none = call_driver_fn d p none := by
      simp only [call_driver_fn]
      rw [hagree]
    unfold new_with_lua_params
    rw [hcall]
    cases hres : call_driver_fn d p none with
    | error e => rfl
    | ok r =>
      cases r with
      | error msg => rfl
      | ok st =>
        rcases st with ⟨s, snap⟩
        cases s with
        | asking id q => simp [Form.data, Except.map]
        | done v => rfl
  · intro id q snap h
    unfold new_with_lua_params
    rw [h]
  · intro msg h
    unfold new_with_lua_params
    rw [h]
  · intro v snap h
    unfold new_with_lua_params
    rw [h]

/-- Witness for C6: the demo driver builds the expected fresh engine, a
driver whose first poll errors fails with the first-poll failure, and a
driver whose first poll is done fails with the first-poll-done error. -/
theorem new_spec_witness :
    (new_with_lua_params demoDriver LuaVal.nil).map Form.data =
        (new_with_lua_params demoDriver LuaVal.nil).map Form.data ∧
      new_with_lua_params demoDriver LuaVal.nil = Except.ok demoForm0 ∧
      new_with_lua_params firstErrDriver LuaVal.nil =
        Except.error (Error.firstPollFailed "nope") ∧
      new_with_lua_params firstDoneDriver LuaVal.nil =
        Except.error Error.firstPollDone :=
  ⟨(new_spec demoDriver LuaVal.nil).1 demoDriver rfl,
    (new_spec demoDriver LuaVal.nil).2.1 "name" qName (LuaVal.str "s1") rfl,
    (new_spec firstErrDriver LuaVal.nil).2.2.1 "nope" rfl,
    (new_spec firstDoneDriver LuaVal.nil).2.2.2 (LuaVal.str "X")
      LuaVal.nil rfl⟩

/-! Claim C7. -/

/-- C7: extracting the final document succeeds exactly when the pending state
is done, returning the stored document; when the pending state is a question
the engine itself is handed back unchanged so the form can continue to be
used. -/
theorem into_done_spec (f : Form) :
    (∀ obj snap, f.next_state = (ScriptState.done obj, snap) →
      f.into_done = Except.ok obj) ∧
      (∀ id q snap, f.next_state = (ScriptState.asking id q, snap) →
        f.into_done = Except.error f) ∧
      ((∃ v, f.into_done = Except.ok v) ↔
        ∃ obj snap, f.next_state = (ScriptState.done obj, snap)) := by
  refine ⟨?_, ?_, ?_, ?_⟩
  · intro obj snap h
    unfold Form.into_done
    rw [h]
  · intro id q snap h
    unfold Form.into_done
    rw [h]
  · intro hex
    obtain ⟨v, hv⟩ := hex
    unfold Form.into_done at hv
    revert hv
    rcases f.next_state with ⟨st, snap⟩
    cases st with
    | asking id q => intro hv; exact Except.noConfusion hv
    | done obj => intro _; exact ⟨obj, snap, rfl⟩
  · rintro ⟨obj, snap, h⟩
    refine ⟨obj, ?_⟩
    unfold Form.into_done
    rw [h]

/-- Witness for C7: the completed demo form yields its document, the pending
demo form is handed back unchanged. -/
theorem into_done_spec_witness :
    demoForm2.into_done = Except.ok (LuaVal.str "RESULT") ∧
      demoForm1.into_done = Except.error demoForm1 :=
  ⟨(into_done_spec demoForm2).1 (LuaVal.str "RESULT") LuaVal.nil rfl,
    (into_done_spec demoForm1).2.1 "age" qAge (LuaVal.str "s2") rfl⟩

/-! Claim C8, with a master characterization of the committed state used by
the remaining claims as well. -/

theorem locateTarget_of_pending (f : Form) (i : Nat) (id : String)
    (q : Question) (inner : LuaVal)
    (hget : f.script_states.get? i = none)
    (hpending : f.next_state = (ScriptState.asking id q, inner)) :
    locateTarget f i = some (id, q, inner) := by
  unfold locateTarget
  rw [hget, hpending]

/-- Every progress call either leaves the form untouched (short-circuit on a
completed form, answer-shape error, VM failure or script-level error) or
commits: it inserts the answer under the located question id, truncates or
appends the ledger according to whether the index hit the ledger, and
replaces the pending state with the decoded result. -/
theorem progress_characterization (f : Form) (i : Nat) (a : Answer) :
    (f.progress_with_answer i a).2 = f ∨
      ∃ qid q inner ns ni,
        locateTarget f i = some (qid, q, inner) ∧
          validateAnswer q a = none ∧
          f.get_script_state inner a = Except.ok (Except.ok (ns, ni)) ∧
          (f.progress_with_answer i a).2 =
            commitForm f i a qid q inner
              (f.script_states.get? i).isSome ns ni := by
  cases hget : f.script_states.get? i with
  | some t =>
    rcases t with ⟨qid, q, inner⟩
    rw [progress_eq_core_of_get f i a qid q inner hget]
    cases hval : validateAnswer q a with
    | some e =>
      rw [progressCore_validate_some f i a qid q inner true e hval]
      exact Or.inl rfl
    | none =>
      cases hscript : f.get_script_state inner a with
      | error e =>
        rw [progressCore_hard_error f i a qid q inner true e hval hscript]
        exact Or.inl rfl
      | ok r =>
        cases r with
        | error msg =>
          rw [progressCore_script_error f i a qid q inner true msg hval
            hscript]
          exact Or.inl rfl
        | ok pair =>
          rcases pair with ⟨ns, ni⟩
          rw [progressCore_success f i a qid q inner true ns ni hval hscript]
          refine Or.inr ⟨qid, q, inner, ns, ni,
            locateTarget_of_get f i qid q inner hget, hval, hscript, ?_⟩
          rfl
  | none =>
    rcases hnext : f.next_state with ⟨st, snap⟩
    cases st with
    | asking id q =>
      rw [progress_eq_core_of_pending f i a id q snap hget hnext]
      cases hval : validateAnswer q a with
      | some e =>
        rw [progressCore_validate_some f i a id q snap false e hval]
        exact Or.inl rfl
      | none =>
        cases hscript : f.get_script_state snap a with
        | error e =>
          rw [progressCore_hard_error f i a id q snap false e hval hscript]
          exact Or.inl rfl
        | ok r =>
          cases r with
          | error msg =>
            rw [progressCore_script_error f i a id q snap false msg hval
              hscript]
            exact Or.inl rfl
          | ok pair =>
            rcases pair with ⟨ns, ni⟩
            rw [progressCore_success f i a id q snap false ns ni hval hscript]
            refine Or.inr ⟨id, q, snap, ns, ni,
              locateTarget_of_pending f i id q snap hget hnext, hval,
              hscript, ?_⟩
            rfl
    | done v =>
      rw [progress_done_short_circuit f i a v snap hget hnext]
      exact Or.inl rfl

theorem next_question_asking (g : Form) (id : String) (q : Question)
    (h : g.next_state.1 = ScriptState.asking id q) :
    g.next_question = some (q, lookupAnswer g.cached_answers id) := by
  unfold Form.next_question
  rw [h]

theorem get_question_of_ledger (g : Form) (j : Nat) (id : String)
    (q : Question) (snap : LuaVal)
    (h : g.script_states.get? j = some (id, q, snap)) :
    g.get_question j = some (q, lookupAnswer g.cached_answers id) := by
  unfold Form.get_question
  rw [h]

/-- C8: progress (truncation on rewind included) never removes entries from
the cached-answers map — every id with a cached answer before the call still
has one after it, and every id other than the one just answered keeps exactly
its previous binding.  Consequently, whenever the script re-emits a question
whose id has a cached answer, the pending accessor surfaces that answer
alongside the question, and likewise the ledger accessor for ledger
entries. -/
theorem cached_answers_never_removed (f : Form) (i : Nat) (a : Answer) :
    (∀ id, (lookupAnswer f.cached_answers id).isSome = true →
      (lookupAnswer (f.progress_with_answer i a).2.cached_answers id).isSome =
        true) ∧
      (∀ qid q inner, locateTarget f i = some (qid, q, inner) →
        ∀ id, id ≠ qid →
          lookupAnswer (f.progress_with_answer i a).2.cached_answers id =
            lookupAnswer f.cached_answers id) ∧
      (∀ id q, (f.progress_with_answer i a).2.next_state.1 =
          ScriptState.asking id q →
        (f.progress_with_answer i a).2.next_question =
          some (q,
            lookupAnswer (f.progress_with_answer i a).2.cached_answers id)) ∧
      (∀ j id q snap,
        (f.progress_with_answer i a).2.script_states.get? j =
            some (id, q, snap) →
          (f.progress_with_answer i a).2.get_question j =
            some (q,
              lookupAnswer (f.progress_with_answer i a).2.cached_answers
                id)) := by
  refine ⟨?_, ?_,
    fun id q h => next_question_asking _ id q h,
    fun j id q snap h => get_question_of_ledger _ j id q snap h⟩
  · intro id hsome
    rcases progress_characterization f i a with h |
        ⟨qid, q, inner, ns, ni, hloc, hval, hscript, heq⟩
    · rw [h]
      exact hsome
    · rw [heq]
      show (lookupAnswer (insertAnswer f.cached_answers qid a) id).isSome =
        true
      rw [lookupAnswer_insertAnswer]
      by_cases hqi : qid = id
      · rw [if_pos hqi]
        rfl
      · rw [if_neg hqi]
        exact hsome
  · intro qid q inner hloc id hne
    rcases progress_characterization f i a with h |
        ⟨qid', q', inner', ns, ni, hloc', hval, hscript, heq⟩
    · rw [h]
    · rw [hloc] at hloc'
      obtain ⟨h1, -, -⟩ : qid' = qid ∧ q' = q ∧ inner' = inner := by
        have := Option.some.inj hloc'
        exact ⟨congrArg Prod.fst this.symm, by
          have h2 := congrArg Prod.snd this.symm
          exact ⟨congrArg Prod.fst h2, congrArg Prod.snd h2⟩⟩
      subst h1
      rw [heq]
      show lookupAnswer (insertAnswer f.cached_answers qid' a) id =
        lookupAnswer f.cached_answers id
      rw [lookupAnswer_insertAnswer, if_neg (fun hh => hne hh.symm)]

/-- Witness for C8: after rewinding the completed demo form at index 0, the
cached answer for the discarded age question survives, and when the script
re-emits the age question the pending accessor surfaces that cached
answer. -/
theorem cached_answers_never_removed_witness :
    (lookupAnswer (demoForm2.progress_with_answer 0
        (Answer.text "B")).2.cached_answers "age").isSome = true ∧
      (demoForm2.progress_with_answer 0 (Answer.text "B")).2.next_question =
        some (qAge, lookupAnswer (demoForm2.progress_with_answer 0
          (Answer.text "B")).2.cached_answers "age") :=
  ⟨(cached_answers_never_removed demoForm2 0 (Answer.text "B")).1 "age" rfl,
    (cached_answers_never_removed demoForm2 0 (Answer.text "B")).2.2.1 "age"
      qAge rfl⟩

/-! Claim C9. -/

/-- The ledger shape after a progress call: unchanged, truncated to the first
i + 1 entries of a ledger longer than i, or extended by one entry. -/
theorem progress_states_characterization (f : Form) (i : Nat) (a : Answer) :
    (f.progress_with_answer i a).2.script_states = f.script_states ∨
      ((f.progress_with_answer i a).2.script_states =
          f.script_states.take (i + 1) ∧ i < f.script_states.length) ∨
      ∃ e, (f.progress_with_answer i a).2.script_states =
        f.script_states ++ [e] := by
  rcases progress_characterization f i a with h |
      ⟨qid, q, inner, ns, ni, hloc, hval, hscript, heq⟩
  · left
    rw [h]
  · rw [heq]
    cases hg : f.script_states.get? i with
    | some t =>
      right; left
      refine ⟨by simp [commitForm, hg], ?_⟩
      obtain ⟨hlt, -⟩ := List.get?_eq_some.mp hg
      exact hlt
    | none =>
      right; right
      exact ⟨(qid, q, inner), by simp [commitForm, hg]⟩

/-- In every reachable form, an empty ledger means the pending state is still
the first question: only a successful commit changes the pending state, and
every commit leaves a non-empty ledger behind. -/
theorem reachable_empty_ledger_asking (f : Form) (h : Reachable f) :
    f.script_states = [] →
      ∃ id q, f.next_state.1 = ScriptState.asking id q := by
  induction h with
  | init d p f0 hnew =>
    intro _
    unfold new_with_lua_params at hnew
    revert hnew
    cases hcall : call_driver_fn d p none with
    | error e => intro hnew; exact Except.noConfusion hnew
    | ok r =>
      cases r with
      | error msg => intro hnew; exact Except.noConfusion hnew
      | ok st =>
        rcases st with ⟨s, snap⟩
        cases s with
        | asking id q =>
          intro hnew
          injection hnew with hnew
          rw [← hnew]
          exact ⟨id, q, rfl⟩
        | done v => intro hnew; exact Except.noConfusion hnew
  | step f0 i a hr ih =>
    intro hemp
    rcases progress_characterization f0 i a with hid |
        ⟨qid, q, inner, ns, ni, hloc, hval, hscript, heq⟩
    · rw [hid] at hemp ⊢
      exact ih hemp
    · exfalso
      rw [heq] at hemp
      revert hemp
      cases hg : f0.script_states.get? i with
      | some t =>
        obtain ⟨hlt2, -⟩ := List.get?_eq_some.mp hg
        intro hemp
        have h2 : (commitForm f0 i a qid q inner
            (some t).isSome ns ni).script_states =
            f0.script_states.take (i + 1) := rfl
        rw [h2] at hemp
        have h3 := congrArg List.length hemp
        rw [List.length_take] at h3
        simp only [List.length_nil] at h3
        omega
      | none =>
        intro hemp
        have h2 : (commitForm f0 i a qid q inner
            (none : Option (String × Question × LuaVal)).isSome ns
              ni).script_states =
            f0.script_states ++ [(qid, q, inner)] := rfl
        rw [h2] at hemp
        simp at hemp

/-- C9: on a reachable form on which no answer has been accepted yet (empty
ledger and empty cached-answers map), the first-question accessor does not
panic and returns the question held in the pending state; as soon as the form
has been progressed (non-empty ledger or non-empty answers map) it panics, a
fatal programmer error. -/
theorem first_question_spec (f : Form) (h : Reachable f) :
    (f.script_states = [] ∧ f.cached_answers = [] →
      ∃ id q, f.next_state.1 = ScriptState.asking id q ∧
        f.first_question = some q) ∧
      ((¬ f.script_states = [] ∨ ¬ f.cached_answers = []) →
        f.first_question = none) := by
  constructor
  · rintro ⟨hs, hc⟩
    obtain ⟨id, q, hask⟩ := reachable_empty_ledger_asking f h hs
    refine ⟨id, q, hask, ?_⟩
    unfold Form.first_question
    have hcond : ¬ (¬ f.script_states.isEmpty = true ∨
        ¬ f.cached_answers.isEmpty = true) := by
      rw [hs, hc]
      simp
    rw [if_neg hcond, hask]
  · intro hne
    unfold Form.first_question
    have hcond : ¬ f.script_states.isEmpty = true ∨
        ¬ f.cached_answers.isEmpty = true := by
      rcases hne with h1 | h1
      · left
        simpa [List.isEmpty_iff] using h1
      · right
        simpa [List.isEmpty_iff] using h1
    rw [if_pos hcond]

/-- Witness for C9: the freshly constructed demo form yields its first
question, and the form progressed by one answer panics. -/
theorem first_question_spec_witness :
    (∃ id q, demoForm0.next_state.1 = ScriptState.asking id q ∧
      demoForm0.first_question = some q) ∧
      demoForm1.first_question = none :=
  ⟨(first_question_spec demoForm0
      (Reachable.init demoDriver LuaVal.nil demoForm0 rfl)).1 ⟨rfl, rfl⟩,
    (first_question_spec demoForm1
      (Reachable.step demoForm0 0 (Answer.text "B")
        (Reachable.init demoDriver LuaVal.nil demoForm0 rfl))).2
      (Or.inr (List.cons_ne_nil _ _))⟩

/-! Claim C10. -/

/-- Overwriting one key of the hash part of a Lua table (used to compare a
payload against the same payload with its default key blanked out). -/
def setField : List (String × LuaVal) → String → LuaVal →
    List (String × LuaVal)
  | [], key, v => [(key, v)]
  | (k, w) :: rest, key, v =>
      if k = key then (k, v) :: rest else (k, w) :: setField rest key v

theorem tableGet_setField (fields : List (String × LuaVal)) (key : String)
    (v : LuaVal) (k : String) :
    tableGet (setField fields key v) k =
      if key = k then v else tableGet fields k := by
  induction fields with
  | nil =>
    by_cases h : key = k <;> simp [setField, tableGet, h]
  | cons hd rest ih =>
    obtain ⟨k0, w0⟩ := hd
    by_cases h0 : k0 = key
    · subst h0
      by_cases h : k0 = k <;> simp [setField, tableGet, h]
    · by_cases h : k0 = k
      · subst h
        have hkk : ¬ key = k0 := fun hh => h0 hh.symm
        simp [setField, tableGet, h0, hkk]
      · simp [setField, tableGet, h0, h, ih]

/-- The question decoder only looks at the five named keys and at the string
coercion of the default key: payload tables agreeing there decode
identically. -/
theorem from_lua_question_congr (arr1 arr2 : List LuaVal)
    (fields1 fields2 : List (String × LuaVal))
    (hid : tableGet fields1 "id" = tableGet fields2 "id")
    (hty : tableGet fields1 "type" = tableGet fields2 "type")
    (htext : tableGet fields1 "text" = tableGet fields2 "text")
    (hdef : luaToStringCoerce (tableGet fields1 "default") =
      luaToStringCoerce (tableGet fields2 "default"))
    (hmul : tableGet fields1 "multiple" = tableGet fields2 "multiple")
    (hopt : tableGet fields1 "options" = tableGet fields2 "options") :
    ScriptState.from_lua "question" (LuaVal.table arr1 fields1) =
      ScriptState.from_lua "question" (LuaVal.table arr2 fields2) := by
  unfold ScriptState.from_lua decodeSelectQuestion
  simp only [hid, hty, htext, hdef, hmul, hopt]
  rfl

/-- Every successfully decoded question carries as its default exactly the
string coercion of the default key of the payload. -/
theorem from_lua_question_defaultOf (arr : List LuaVal)
    (fields : List (String × LuaVal)) (id0 : String) (q0 : Question)
    (h : ScriptState.from_lua "question" (LuaVal.table arr fields) =
      Except.ok (Except.ok (ScriptState.asking id0 q0))) :
    q0.defaultOf = luaToStringCoerce (tableGet fields "default") := by
  simp only [ScriptState.from_lua, decodeSelectQuestion] at h
  rw [if_pos trivial] at h
  repeat' split at h
  all_goals (try exact Except.noConfusion h)
  all_goals simp only [Except.ok.injEq, Except.error.injEq,
    ScriptState.asking.injEq] at h
  all_goals (try (obtain ⟨-, h2⟩ := h; subst h2; rfl))
  all_goals (obtain ⟨-, h2⟩ := h; subst h2; simp_all [Question.defaultOf])

/-- C10: a default key that is present in a question payload but fails the
string conversion (for example, a table) causes no error: the payload decodes
exactly as if the default key were absent (blanked to nil), and any question
it decodes to carries no default. -/
theorem question_default_unconvertible_ignored (arr : List LuaVal)
    (fields : List (String × LuaVal)) (d : LuaVal)
    (hd : tableGet fields "default" = d)
    (hfail : luaToStringCoerce d = none) :
    ScriptState.from_lua "question" (LuaVal.table arr fields) =
        ScriptState.from_lua "question"
          (LuaVal.table arr (setField fields "default" LuaVal.nil)) ∧
      ∀ id q, ScriptState.from_lua "question" (LuaVal.table arr fields) =
          Except.ok (Except.ok (ScriptState.asking id q)) →
        q.defaultOf = none := by
  constructor
  · refine from_lua_question_congr arr arr fields
      (setField fields "default" LuaVal.nil) ?_ ?_ ?_ ?_ ?_ ?_
    · rw [tableGet_setField, if_neg (by decide)]
    · rw [tableGet_setField, if_neg (by decide)]
    · rw [tableGet_setField, if_neg (by decide)]
    · rw [tableGet_setField, if_pos rfl, hd, hfail]
      rfl
    · rw [tableGet_setField, if_neg (by decide)]
    · rw [tableGet_setField, if_neg (by decide)]
  · intro id q h
    rw [from_lua_question_defaultOf arr fields id q h, hd, hfail]

/-- Witness for C10: a simple-question payload whose default is a table
decodes as if the default were absent, to a question with no default. -/
theorem question_default_unconvertible_ignored_witness :
    ScriptState.from_lua "question" (LuaVal.table []
        (("default", LuaVal.table [] []) :: qTableFields "a" "simple" "T")) =
        ScriptState.from_lua "question" (LuaVal.table []
          (setField (("default", LuaVal.table [] []) ::
            qTableFields "a" "simple" "T") "default" LuaVal.nil)) ∧
      (Question.simple "T" none).defaultOf = none :=
  ⟨(question_default_unconvertible_ignored []
      (("default", LuaVal.table [] []) :: qTableFields "a" "simple" "T")
      (LuaVal.table [] []) rfl rfl).1,
    (question_default_unconvertible_ignored []
      (("default", LuaVal.table [] []) :: qTableFields "a" "simple" "T")
      (LuaVal.table [] []) rfl rfl).2 "a" (Question.simple "T" none) rfl⟩

end Birocrat
